import Mathlib

/-!
Shallow embedding of `src/data/posted-jobs-manager-v2.js` (PostedJobsManagerV2):
the deduplication and archival store for job announcements.

Modelling conventions:
* Timestamps are epoch milliseconds (`Int`); the JS code stores ISO-8601 strings
  and compares them after `new Date(...)` parsing, which is order-isomorphic to
  the millisecond value.  The calendar rendering of a millisecond instant to its
  "YYYY-MM-DD" day string (used to mint instance ids and, truncated to 7
  characters, the "YYYY-MM" archive-bucket keys) is abstracted as a function
  `cal : Int -> String` carried in the configuration.
* JS `undefined`/`null`-able fields are `Option`s; absent object keys are
  modelled as `none` (or `false` for the `migratedFromV1` flag).
* Fractional-day arithmetic (`(Date.now() - d) / 86400000`) is exact rational
  arithmetic over `ℚ`.
* The file system is a partial map from path strings to parsed file contents;
  the write-temp / flush / rename sequence is `atomicReplace`.
-/

namespace PostedJobsV2

/-- Milliseconds per day, `1000 * 60 * 60 * 24` as in the source. -/
def msPerDay : Int := 1000 * 60 * 60 * 24

/-- The fields of the loosely-typed job-data record that the manager reads
(`job_posted_at_datetime_utc`, `employer_name`, `job_title`, `job_apply_link`);
each may be absent. -/
structure JobData where
  job_posted_at_datetime_utc : Option Int
  employer_name : Option String
  job_title : Option String
  job_apply_link : Option String
deriving DecidableEq, Repr

/-- One posting instance record, as pushed by `markAsPosted` (lines 200-210)
and by `migrateFromV1` (lines 91-101). -/
structure Job where
  id : String
  jobId : String
  company : String
  title : String
  postedToDiscord : Int
  sourceDate : Option Int
  sourceUrl : Option String
  discordThreadId : Option String
  instanceNumber : Nat
deriving DecidableEq, Repr

/-- The `metadata.lastArchive` record written by `savePostedJobs` (lines 332-336). -/
structure LastArchive where
  date : Int
  archived : Nat
  monthsAffected : Option Nat
deriving DecidableEq, Repr

/-- The `metadata` object of the V2 database.  `activeWindowDays` is an
`Option` because the constructor calls `loadPostedJobs` before assigning
`this.activeWindowDays`, so the value written at construction time is the JS
`undefined` (`none` here). -/
structure Metadata where
  totalJobs : Nat
  activeWindowDays : Option Nat
  migratedFromV1 : Bool
  migrationDate : Option Int
  lastArchive : Option LastArchive
deriving DecidableEq, Repr

/-- The structured V2 database object (`{version, lastUpdated, jobs, metadata}`). -/
structure V2Store where
  version : Nat
  lastUpdated : Int
  jobs : List Job
  metadata : Metadata
deriving DecidableEq, Repr

/-- Manager configuration: the two window settings (constructor lines 28-29)
and the abstract ISO calendar rendering of an epoch-millisecond instant to its
"YYYY-MM-DD" day string. -/
structure Config where
  activeWindowDays : Nat
  reopeningWindowDays : Nat
  cal : Int → String

/-- `createEmptyDatabase` (lines 71-81): fresh V2 structure with no jobs.
`aw` is the value of `this.activeWindowDays` at the call site (undefined, i.e.
`none`, when reached from the constructor's load). -/
def createEmptyDatabase (aw : Option Nat) (nowMs : Int) : V2Store :=
  { version := 2
    lastUpdated := nowMs
    jobs := []
    metadata :=
      { totalJobs := 0
        activeWindowDays := aw
        migratedFromV1 := false
        migrationDate := none
        lastArchive := none } }

/-- `migrateFromV1` (lines 87-117): wrap each bare V1 job id into a V2 instance
record whose `postedToDiscord` is the hardcoded `Date.now() - 8 * 24*60*60*1000`
("8 days ago"), with `instanceNumber = 1` and unknown company/title. -/
def migrateFromV1 (aw : Option Nat) (nowMs : Int) (jobIdsArray : List String) : V2Store :=
  let eightDaysAgo : Int := nowMs - 8 * msPerDay
  let jobs : List Job := jobIdsArray.enum.map (fun p =>
    { id := p.2 ++ "-migrated-" ++ toString p.1
      jobId := p.2
      company := "Unknown (migrated)"
      title := "Unknown (migrated)"
      postedToDiscord := eightDaysAgo
      sourceDate := none
      sourceUrl := none
      discordThreadId := none
      instanceNumber := 1 })
  { version := 2
    lastUpdated := nowMs
    jobs := jobs
    metadata :=
      { totalJobs := jobs.length
        activeWindowDays := aw
        migratedFromV1 := true
        migrationDate := some nowMs
        lastArchive := none } }

/-- The possible parsed shapes of the `posted_jobs.json` file, as discriminated
by `loadPostedJobs` (lines 36-66): absent file, unparseable JSON (the catch
branch; a JSON `null` also lands there via the `TypeError` on `rawData.version`),
a V1 flat array of job-id strings, a structured document with `version === 2`,
or any other parsed value (`version` missing or not 2). -/
inductive FileContent where
  | missing
  | corruptJson
  | v1Array (ids : List String)
  | v2Doc (s : V2Store)
  | unknownFormat
deriving Repr

/-- `loadPostedJobs` (lines 36-66).  `aw` is the value of `this.activeWindowDays`
at the call site (undefined at construction time). -/
def loadPostedJobs (aw : Option Nat) (nowMs : Int) : FileContent → V2Store
  | .missing => createEmptyDatabase aw nowMs
  | .corruptJson => createEmptyDatabase aw nowMs
  | .v1Array ids => migrateFromV1 aw nowMs ids
  | .v2Doc s => s
  | .unknownFormat => createEmptyDatabase aw nowMs

/-- The manager object: `this.data` plus the two window settings. -/
structure Manager where
  data : V2Store
  activeWindowDays : Nat
  reopeningWindowDays : Nat
deriving Repr

/-- The constructor (lines 25-30).  `this.data = this.loadPostedJobs()` runs
first, while `this.activeWindowDays` is still undefined (`none`); only
afterwards are the window fields assigned from the environment
(`parseInt(process.env...) || default`). -/
def constructManager (file : FileContent) (nowMs : Int)
    (envActiveWindowDays envReopeningWindowDays : Option Nat) : Manager :=
  { data := loadPostedJobs none nowMs file
    activeWindowDays := envActiveWindowDays.getD 7
    reopeningWindowDays := envReopeningWindowDays.getD 30 }

/-- Ordering of instance records by their `postedToDiscord` value: the
comparator `(a, b) => new Date(a.postedToDiscord) - new Date(b.postedToDiscord)`
passed to `sort` at lines 168-170 and 282-284. -/
def byPosted (a b : Job) : Prop := a.postedToDiscord ≤ b.postedToDiscord

instance : DecidableRel byPosted :=
  fun a b => inferInstanceAs (Decidable (a.postedToDiscord ≤ b.postedToDiscord))

instance : IsTotal Job byPosted :=
  ⟨fun a b => Int.le_total a.postedToDiscord b.postedToDiscord⟩

instance : IsTrans Job byPosted :=
  ⟨fun _ _ _ h1 h2 => le_trans h1 h2⟩

/-- The no-source-date tail of `hasBeenPosted` (lines 167-180): sort the
matching instances ascending by `postedToDiscord`, take the first (the oldest),
and allow reposting exactly when `monthsSinceOldest >= 3` (30-day months). -/
def hasBeenPostedNoSourceDate (instances : List Job) (nowMs : Int) : Bool :=
  match (List.insertionSort byPosted instances).head? with
  | none => true
  | some oldestInstance =>
      let monthsSinceOldest : ℚ :=
        ((nowMs - oldestInstance.postedToDiscord : Int) : ℚ) / (1000 * 60 * 60 * 24 * 30)
      if (3 : ℚ) ≤ monthsSinceOldest then false else true

/-- `hasBeenPosted` (lines 126-181): the dedup / reopening decision.
Returns `true` to skip, `false` to allow posting. -/
def hasBeenPosted (cfg : Config) (store : V2Store) (nowMs : Int)
    (jobId : String) (jobData : Option JobData) : Bool :=
  let instances := store.jobs.filter (fun job => decide (job.jobId = jobId))
  if instances.isEmpty then false
  else
    let cutoffDate : Int := nowMs - (cfg.activeWindowDays : Int) * msPerDay
    let hasActiveInstance := instances.any (fun inst => decide (cutoffDate < inst.postedToDiscord))
    if hasActiveInstance then true
    else
      match jobData with
      | some jd =>
          match jd.job_posted_at_datetime_utc with
          | some sourceDate =>
              let daysSinceSourcePost : ℚ :=
                ((nowMs - sourceDate : Int) : ℚ) / (1000 * 60 * 60 * 24)
              if daysSinceSourcePost ≤ (cfg.reopeningWindowDays : ℚ) then false else true
          | none => hasBeenPostedNoSourceDate instances nowMs
      | none => hasBeenPostedNoSourceDate instances nowMs

/-- The `sourceDate` carried by an optional job-data record (the JS truthiness
test `jobData && jobData.job_posted_at_datetime_utc` at line 149). -/
def jobDataSourceOf : Option JobData → Option Int
  | none => none
  | some jd => jd.job_posted_at_datetime_utc

/-- The instance record pushed by `markAsPosted` (lines 190-212):
`instanceNumber` is one more than the number of instances of this `jobId`
currently in the active store, and the instance id is
`jobId + "-" + <day of now> + "-" + instanceNumber`. -/
def newJobOf (cfg : Config) (store : V2Store) (nowMs : Int)
    (jobId : String) (jobData : JobData) (discordThreadId : Option String) : Job :=
  let existingInstances := store.jobs.filter (fun job => decide (job.jobId = jobId))
  let instanceNumber := existingInstances.length + 1
  { id := jobId ++ "-" ++ cfg.cal nowMs ++ "-" ++ toString instanceNumber
    jobId := jobId
    company := jobData.employer_name.getD "Unknown"
    title := jobData.job_title.getD "Unknown"
    postedToDiscord := nowMs
    sourceDate := jobData.job_posted_at_datetime_utc
    sourceUrl := jobData.job_apply_link
    discordThreadId := discordThreadId
    instanceNumber := instanceNumber }

/-- The in-memory part of `markAsPosted` (lines 190-214): push the new
instance, bump `lastUpdated` and `metadata.totalJobs`.  (The subsequent
`savePostedJobs` call is composed in `markAsPostedSys`.) -/
def markAsPostedStore (cfg : Config) (store : V2Store) (nowMs : Int)
    (jobId : String) (jobData : JobData) (discordThreadId : Option String) : V2Store :=
  let newJob := newJobOf cfg store nowMs jobId jobData discordThreadId
  { store with
    jobs := store.jobs ++ [newJob]
    lastUpdated := nowMs
    metadata := { store.metadata with totalJobs := store.jobs.length + 1 } }

/-- The whole persistent state: the active store plus the monthly archive
buckets ("YYYY-MM" key, absent file = empty list). -/
structure Sys where
  store : V2Store
  buckets : String → List Job

/-- The statistics object returned by `archiveOldJobs`.  `months` is `none` on
the early return (line 243), where the JS object carries no `months` key. -/
structure ArchiveStats where
  archived : Nat
  active : Nat
  months : Option Nat
deriving DecidableEq, Repr

/-- The archive-bucket key of an instance: `job.postedToDiscord.slice(0, 7)`
of the stored ISO string, i.e. the first 7 characters ("YYYY-MM") of the
calendar rendering. -/
def monthOf (cal : Int → String) (j : Job) : String := (cal j.postedToDiscord).take 7

/-- `archiveOldJobs` (lines 226-312), state-level: partition the active store
at `cutoffDate`, group the aged instances by month, merge each group into its
bucket deduplicating by instance `id` against the existing bucket content,
sort each merged bucket ascending by `postedToDiscord`, and keep only the
still-active instances in the store. -/
def archiveOldJobs (cfg : Config) (nowMs : Int) (sys : Sys) : Sys × ArchiveStats :=
  let cutoffDate : Int := nowMs - (cfg.activeWindowDays : Int) * msPerDay
  let activeJobs := sys.store.jobs.filter (fun j => decide (cutoffDate < j.postedToDiscord))
  let jobsToArchive := sys.store.jobs.filter (fun j => !(decide (cutoffDate < j.postedToDiscord)))
  if jobsToArchive.isEmpty then
    (sys, { archived := 0, active := activeJobs.length, months := none })
  else
    let months := (jobsToArchive.map (monthOf cfg.cal)).dedup
    let newBuckets : String → List Job := fun m =>
      if m ∈ months then
        let group := jobsToArchive.filter (fun j => decide (monthOf cfg.cal j = m))
        let existingArchive := sys.buckets m
        let existingIds := existingArchive.map (fun j => j.id)
        let newJobs := group.filter (fun j => !(decide (j.id ∈ existingIds)))
        List.insertionSort byPosted (existingArchive ++ newJobs)
      else sys.buckets m
    let totalArchived := (months.map (fun m =>
        ((jobsToArchive.filter (fun j => decide (monthOf cfg.cal j = m))).filter
          (fun j => !(decide (j.id ∈ (sys.buckets m).map (fun j2 => j2.id))))).length)).sum
    ({ store :=
        { sys.store with
          jobs := activeJobs
          metadata := { sys.store.metadata with totalJobs := activeJobs.length } }
       buckets := newBuckets },
     { archived := totalArchived, active := activeJobs.length, months := some months.length })

/-- `markAsPosted` composed with the archive step of `savePostedJobs`
(lines 190-219 and 317-336, ignoring the file writes): push the new instance,
archive aged ones, then record `lastUpdated` and `metadata.lastArchive`. -/
def markAsPostedSys (cfg : Config) (nowMs : Int) (jobId : String) (jobData : JobData)
    (discordThreadId : Option String) (sys : Sys) : Sys :=
  let store1 := markAsPostedStore cfg sys.store nowMs jobId jobData discordThreadId
  let res := archiveOldJobs cfg nowMs { store := store1, buckets := sys.buckets }
  { store :=
      { res.1.store with
        lastUpdated := nowMs
        metadata :=
          { res.1.store.metadata with
            lastArchive := some
              { date := nowMs, archived := res.2.archived, monthsAffected := res.2.months } } }
    buckets := res.1.buckets }

/-- One externally-driven operation against the manager: a `markAsPosted`
call (which archives and saves internally) or a bare archive run. -/
inductive Op where
  | append (nowMs : Int) (jobId : String) (jobData : JobData) (discordThreadId : Option String)
  | archive (nowMs : Int)

/-- Apply one operation. -/
def stepOp (cfg : Config) (sys : Sys) : Op → Sys
  | .append nowMs jobId jobData th => markAsPostedSys cfg nowMs jobId jobData th sys
  | .archive nowMs => (archiveOldJobs cfg nowMs sys).1

/-- Apply one operation, also logging the id of any appended instance. -/
def stepLog (cfg : Config) (s : Sys × List String) (op : Op) : Sys × List String :=
  match op with
  | .append nowMs jobId jobData th =>
      (markAsPostedSys cfg nowMs jobId jobData th s.1,
       s.2 ++ [(newJobOf cfg s.1.store nowMs jobId jobData th).id])
  | .archive nowMs => ((archiveOldJobs cfg nowMs s.1).1, s.2)

/-- Fresh system state: empty active store (as loaded by a fresh constructor)
and no archive bucket files. -/
def initSys (nowMs : Int) : Sys :=
  { store := createEmptyDatabase none nowMs, buckets := fun _ => [] }

/-- Run a sequence of operations from the fresh state, collecting the ids of
all appended instances. -/
def runLog (cfg : Config) (now0 : Int) (ops : List Op) : Sys × List String :=
  ops.foldl (stepLog cfg) (initSys now0, [])

/-- The set of instance ids present anywhere in the system: active store plus
all monthly archive buckets, deduplicated by id. -/
def allIds (sys : Sys) : Set String :=
  {i | (∃ j ∈ sys.store.jobs, j.id = i) ∨ (∃ m, ∃ j ∈ sys.buckets m, j.id = i)}

/-- Parsed content of a persisted file: either the active-store document or a
monthly archive array. -/
inductive FileData where
  | storeDoc (s : V2Store)
  | bucketArr (l : List Job)

/-- A file system: a partial map from path strings to parsed file contents. -/
def FS : Type := String → Option FileData

/-- Write the serialized payload to the temporary sibling path `p + ".tmp"`
(`openSync`/`writeSync`/`fsyncSync`/`closeSync`, lines 290-293 and 342-345). -/
def writeTempFile (fs : FS) (p : String) (c : FileData) : FS :=
  fun q => if q = p ++ ".tmp" then some c else fs q

/-- Atomically rename the temporary file onto the target path (`renameSync`,
lines 295 and 347). -/
def renameTempInto (fs : FS) (p : String) : FS :=
  fun q => if q = p then fs (p ++ ".tmp") else if q = p ++ ".tmp" then none else fs q

/-- The write-temp / flush / rename sequence shared by the active-store save
and every archive-bucket save. -/
def atomicReplace (fs : FS) (p : String) (c : FileData) : FS :=
  renameTempInto (writeTempFile fs p c) p

/-- The active-store file path (`.github/data/posted_jobs.json`). -/
def postedJobsPath : String := ".github/data/posted_jobs.json"

/-- The monthly archive-bucket file path (`.github/data/archive/<YYYY-MM>.json`). -/
def archiveBucketPath (m : String) : String := ".github/data/archive/" ++ m ++ ".json"

/-- The distinct months touched by an archive run: the "YYYY-MM" keys of the
aged instances, one archive file per key (lines 252-260). -/
def archiveMonths (cfg : Config) (nowMs : Int) (jobs : List Job) : List String :=
  ((jobs.filter (fun j =>
    !(decide (nowMs - (cfg.activeWindowDays : Int) * msPerDay < j.postedToDiscord)))).map
      (monthOf cfg.cal)).dedup

/-- The archive-bucket writes performed by `archiveOldJobs` (lines 264-299):
each touched month's merged bucket is persisted through the same
`atomicReplace` mechanism as the active store, with no post-write
verification. -/
def archiveWritesFS (cfg : Config) (nowMs : Int) (sys : Sys) (fs : FS) : FS :=
  (archiveMonths cfg nowMs sys.store.jobs).foldl
    (fun acc m =>
      atomicReplace acc (archiveBucketPath m)
        (.bucketArr ((archiveOldJobs cfg nowMs sys).1.buckets m)))
    fs

/-- The document written to the active-store file by `savePostedJobs`
(lines 328-340): the post-archive store with `lastUpdated` and
`metadata.lastArchive` refreshed. -/
def saveDoc (cfg : Config) (nowMs : Int) (sys : Sys) : V2Store :=
  let res := archiveOldJobs cfg nowMs sys
  { res.1.store with
    lastUpdated := nowMs
    metadata :=
      { res.1.store.metadata with
        lastArchive := some
          { date := nowMs, archived := res.2.archived, monthsAffected := res.2.months } } }

/-- The file system after all the writes of one `savePostedJobs` run: the
bucket writes of the embedded `archiveOldJobs`, then the atomic replacement of
the active-store file. -/
def fsAfterSaveWrites (cfg : Config) (nowMs : Int) (sys : Sys) (fs : FS) : FS :=
  atomicReplace (archiveWritesFS cfg nowMs sys fs) postedJobsPath
    (.storeDoc (saveDoc cfg nowMs sys))

/-- Outcome of a `savePostedJobs` run: success, or the `process.exit(1)` taken
when the catch block receives the write-verification error (lines 349-365). -/
inductive SaveOutcome where
  | ok (data : Sys)
  | fatalExit

/-- `savePostedJobs` (lines 317-366): archive, write everything atomically,
then re-read the active-store file and compare its record count with the
in-memory count; any mismatch (or unreadable re-read) reaches the catch block
and terminates the process.  `interfere` models whatever happens to the disk
between the rename and the verification re-read (identity for a faithful
disk); the verification consults only the active-store path. -/
def savePostedJobsFS (cfg : Config) (nowMs : Int) (sys : Sys) (fs : FS)
    (interfere : FS → FS) : SaveOutcome :=
  let fsFinal := interfere (fsAfterSaveWrites cfg nowMs sys fs)
  match fsFinal postedJobsPath with
  | some (.storeDoc verifyData) =>
      if verifyData.jobs.length ≠ (saveDoc cfg nowMs sys).jobs.length then .fatalExit
      else .ok { store := saveDoc cfg nowMs sys, buckets := (archiveOldJobs cfg nowMs sys).1.buckets }
  | _ => .fatalExit

/-- The record count obtained by re-reading the active-store file at `p`
(`JSON.parse(readFileSync(p)).jobs.length`, line 350); `none` when the file is
missing, not parseable, or not a store document. -/
def readStoreCount (fs : FS) (p : String) : Option Nat :=
  match fs p with
  | some (.storeDoc s) => some s.jobs.length
  | _ => none

/-- A concrete calendar rendering for closed test scenarios: one distinct
"day" string per instant. -/
def calMs : Int → String := fun ms => toString ms

/-- The default configuration: `activeWindowDays = 7`, `reopeningWindowDays = 30`. -/
def cfgDefault : Config :=
  { activeWindowDays := 7, reopeningWindowDays := 30, cal := calMs }

/-- A job-data record with every optional field absent. -/
def emptyJobData : JobData :=
  { job_posted_at_datetime_utc := none
    employer_name := none
    job_title := none
    job_apply_link := none }

/-- Disk interference that corrupts one archive-bucket file and nothing else
(used to exercise the absence of bucket write verification). -/
def corruptBucketZero : FS → FS :=
  fun f q => if q = archiveBucketPath "0" then none else f q

/-!  ## Theorems  -/

theorem insertionSort_head_min (l : List Job) (hne : l ≠ []) :
    ∃ h, (List.insertionSort byPosted l).head? = some h ∧ h ∈ l ∧
      ∀ x ∈ l, h.postedToDiscord ≤ x.postedToDiscord := by
  have hperm := List.perm_insertionSort byPosted l
  have hsorted := List.sorted_insertionSort byPosted l
  cases hs : List.insertionSort byPosted l with
  | nil =>
      exact absurd ((hs ▸ hperm).symm.eq_nil) hne
  | cons a t =>
      refine ⟨a, rfl, ?_, ?_⟩
      · have : a ∈ List.insertionSort byPosted l := by
          rw [hs]; exact List.mem_cons_self a t
        exact (List.mem_insertionSort byPosted).mp this
      · intro x hx
        have hx' : x ∈ a :: t := by
          rw [← hs]; exact (List.mem_insertionSort byPosted).mpr hx
        rcases List.mem_cons.mp hx' with h | hxt
        · exact le_of_eq (congrArg Job.postedToDiscord h.symm)
        · exact (List.sorted_cons.mp (hs ▸ hsorted)).1 x hxt

/-- Claim C3: for any jobId with an instance appended at time `t`, the skip
query (`hasBeenPosted`) returns true at every query time in the half-open
interval `[t, t + activeWindowDays)`; and when no instance of the jobId exists
in the active store at all, it returns false. -/
theorem hasBeenPosted_recency (cfg : Config) (store : V2Store) (nowMs : Int)
    (jobId : String) (jobData : Option JobData) :
    (∀ j ∈ store.jobs, j.jobId = jobId →
      j.postedToDiscord ≤ nowMs →
      nowMs < j.postedToDiscord + (cfg.activeWindowDays : Int) * msPerDay →
      hasBeenPosted cfg store nowMs jobId jobData = true)
    ∧ (store.jobs.filter (fun job => decide (job.jobId = jobId)) = [] →
      hasBeenPosted cfg store nowMs jobId jobData = false) := by
  constructor
  · intro j hj hjid hle hlt
    have hmem : j ∈ store.jobs.filter (fun job => decide (job.jobId = jobId)) :=
      List.mem_filter.mpr ⟨hj, by simp [hjid]⟩
    have hne : (store.jobs.filter (fun job => decide (job.jobId = jobId))).isEmpty = false := by
      rcases (store.jobs.filter (fun job => decide (job.jobId = jobId))).isEmpty.eq_false_or_eq_true
        with h | h
      · exact absurd (List.isEmpty_iff.mp h ▸ hmem) (List.not_mem_nil j)
      · exact h
    have hact : (store.jobs.filter (fun job => decide (job.jobId = jobId))).any
        (fun inst => decide (nowMs - (cfg.activeWindowDays : Int) * msPerDay
          < inst.postedToDiscord)) = true :=
      List.any_eq_true.mpr ⟨j, hmem, by simp; omega⟩
    simp only [hasBeenPosted, hne, Bool.false_eq_true, if_false, hact, if_true]
  · intro hnone
    simp only [hasBeenPosted, hnone, List.isEmpty_nil, if_true]

/-- Claim C3 witness: a concrete store with one instance of "j" posted at
time 0, queried 3 days later (inside the window, skip) and for an unknown
jobId (never posted, allow). -/
theorem hasBeenPosted_recency_witness :
    hasBeenPosted cfgDefault
      { version := 2, lastUpdated := 0
        jobs := [{ id := "j-0-1", jobId := "j", company := "c", title := "t",
                   postedToDiscord := 0, sourceDate := none, sourceUrl := none,
                   discordThreadId := none, instanceNumber := 1 }]
        metadata := { totalJobs := 1, activeWindowDays := some 7, migratedFromV1 := false,
                      migrationDate := none, lastArchive := none } }
      (3 * msPerDay) "j" none = true
    ∧ hasBeenPosted cfgDefault
      { version := 2, lastUpdated := 0
        jobs := [{ id := "j-0-1", jobId := "j", company := "c", title := "t",
                   postedToDiscord := 0, sourceDate := none, sourceUrl := none,
                   discordThreadId := none, instanceNumber := 1 }]
        metadata := { totalJobs := 1, activeWindowDays := some 7, migratedFromV1 := false,
                      migrationDate := none, lastArchive := none } }
      (3 * msPerDay) "k" none = false := by
  constructor
  · exact (hasBeenPosted_recency cfgDefault _ (3 * msPerDay) "j" none).1
      { id := "j-0-1", jobId := "j", company := "c", title := "t",
        postedToDiscord := 0, sourceDate := none, sourceUrl := none,
        discordThreadId := none, instanceNumber := 1 }
      (by decide) (by decide) (by decide) (by decide)
  · exact (hasBeenPosted_recency cfgDefault _ (3 * msPerDay) "k" none).2 (by decide)

/-- Claim C8: `loadPostedJobs` returns a fresh empty store (version 2, no
jobs) for a missing file, corrupt JSON, and an unrecognized format; a
version-2 structured document is returned as-is; a V1 flat array is migrated
(not returned as-is, not emptied). -/
theorem loadPostedJobs_dispatch (aw : Option Nat) (nowMs : Int) :
    loadPostedJobs aw nowMs .missing = createEmptyDatabase aw nowMs
    ∧ loadPostedJobs aw nowMs .corruptJson = createEmptyDatabase aw nowMs
    ∧ loadPostedJobs aw nowMs .unknownFormat = createEmptyDatabase aw nowMs
    ∧ (createEmptyDatabase aw nowMs).version = 2
    ∧ (createEmptyDatabase aw nowMs).jobs = []
    ∧ (∀ s, loadPostedJobs aw nowMs (.v2Doc s) = s)
    ∧ (∀ ids, loadPostedJobs aw nowMs (.v1Array ids) = migrateFromV1 aw nowMs ids) :=
  ⟨rfl, rfl, rfl, rfl, rfl, fun _ => rfl, fun _ => rfl⟩

/-- Claim C10: when the store file is missing or holds the legacy flat-list
format, the constructed manager's `data.metadata.activeWindowDays` is the JS
`undefined` (`none`), not the configured window, because the constructor loads
(and possibly migrates) before assigning the window fields — which do end up
configured on the manager itself. -/
theorem constructor_activeWindowDays_undefined (nowMs : Int)
    (envActive envReopen : Option Nat) (ids : List String) :
    (constructManager .missing nowMs envActive envReopen).data.metadata.activeWindowDays = none
    ∧ (constructManager (.v1Array ids) nowMs envActive envReopen).data.metadata.activeWindowDays
        = none
    ∧ (constructManager .missing nowMs envActive envReopen).activeWindowDays = envActive.getD 7
    ∧ (constructManager (.v1Array ids) nowMs envActive envReopen).activeWindowDays
        = envActive.getD 7 :=
  ⟨rfl, rfl, rfl, rfl⟩

theorem filter_isEmpty_false_of_ne_nil {p : Job → Bool} {l : List Job}
    (hne : l.filter p ≠ []) : (l.filter p).isEmpty = false := by
  cases hh : (l.filter p).isEmpty with
  | false => rfl
  | true => exact absurd (List.isEmpty_iff.mp hh) hne

theorem aged_instances_any_false (cfg : Config) (store : V2Store) (nowMs : Int) (jobId : String)
    (haged : ∀ j ∈ store.jobs, j.jobId = jobId →
      j.postedToDiscord ≤ nowMs - (cfg.activeWindowDays : Int) * msPerDay) :
    (store.jobs.filter (fun job => decide (job.jobId = jobId))).any
      (fun inst => decide (nowMs - (cfg.activeWindowDays : Int) * msPerDay
        < inst.postedToDiscord)) = false := by
  rw [List.any_eq_false]
  intro inst hinst
  have hmem := List.mem_filter.mp hinst
  have := haged inst hmem.1 (by simpa using hmem.2)
  simp
  omega

/-- Claim C4: with every matching instance aged beyond the active window and a
`sourceDate` supplied, the skip query answers false exactly when the source
date is at most `reopeningWindowDays` old (and true when it is older). -/
theorem hasBeenPosted_reopening_source_date (cfg : Config) (store : V2Store) (nowMs : Int)
    (jobId : String) (jd : JobData) (sourceDate : Int)
    (hsd : jd.job_posted_at_datetime_utc = some sourceDate)
    (hne : store.jobs.filter (fun job => decide (job.jobId = jobId)) ≠ [])
    (haged : ∀ j ∈ store.jobs, j.jobId = jobId →
      j.postedToDiscord ≤ nowMs - (cfg.activeWindowDays : Int) * msPerDay) :
    (hasBeenPosted cfg store nowMs jobId (some jd) = false ↔
      nowMs - sourceDate ≤ (cfg.reopeningWindowDays : Int) * msPerDay) := by
  have h1 := filter_isEmpty_false_of_ne_nil hne
  have h2 := aged_instances_any_false cfg store nowMs jobId haged
  simp only [hasBeenPosted, h1, Bool.false_eq_true, if_false, h2, hsd]
  have hconv : (((nowMs - sourceDate : Int) : ℚ) / (1000 * 60 * 60 * 24)
      ≤ (cfg.reopeningWindowDays : ℚ))
      ↔ nowMs - sourceDate ≤ (cfg.reopeningWindowDays : Int) * msPerDay := by
    rw [div_le_iff₀ (by norm_num : (0 : ℚ) < 1000 * 60 * 60 * 24)]
    rw [show ((cfg.reopeningWindowDays : ℚ) * (1000 * 60 * 60 * 24))
        = (((cfg.reopeningWindowDays : Int) * msPerDay : Int) : ℚ) by
      push_cast [msPerDay]; ring]
    exact Int.cast_le
  split_ifs with hq
  · simpa using hconv.mp hq
  · simpa using fun hh => hq (hconv.mpr hh)

/-- Claim C4 witness: one instance of "j" aged 40 days, queried with a source
date exactly 30 (= reopeningWindowDays) days old: allow (false). -/
theorem hasBeenPosted_reopening_source_date_witness :
    hasBeenPosted cfgDefault
      { version := 2, lastUpdated := 0
        jobs := [{ id := "j-0-1", jobId := "j", company := "c", title := "t",
                   postedToDiscord := 0, sourceDate := none, sourceUrl := none,
                   discordThreadId := none, instanceNumber := 1 }]
        metadata := { totalJobs := 1, activeWindowDays := some 7, migratedFromV1 := false,
                      migrationDate := none, lastArchive := none } }
      (40 * msPerDay) "j"
      (some { emptyJobData with job_posted_at_datetime_utc := some (10 * msPerDay) }) = false :=
  (hasBeenPosted_reopening_source_date cfgDefault _ (40 * msPerDay) "j"
      { emptyJobData with job_posted_at_datetime_utc := some (10 * msPerDay) }
      (10 * msPerDay) rfl (by decide) (by decide)).mpr (by decide)

theorem hasBeenPostedNoSourceDate_iff (instances : List Job) (nowMs : Int) (oldest : Job)
    (hmem : oldest ∈ instances)
    (hmin : ∀ j ∈ instances, oldest.postedToDiscord ≤ j.postedToDiscord) :
    (hasBeenPostedNoSourceDate instances nowMs = false ↔
      3 * (30 * msPerDay) ≤ nowMs - oldest.postedToDiscord) := by
  obtain ⟨h, hhead, hhmem, hhmin⟩ := insertionSort_head_min instances (List.ne_nil_of_mem hmem)
  have heq : h.postedToDiscord = oldest.postedToDiscord :=
    le_antisymm (hhmin oldest hmem) (hmin h hhmem)
  simp only [hasBeenPostedNoSourceDate, hhead]
  have hconv : ((3 : ℚ) ≤ ((nowMs - h.postedToDiscord : Int) : ℚ) / (1000 * 60 * 60 * 24 * 30))
      ↔ 3 * (30 * msPerDay) ≤ nowMs - oldest.postedToDiscord := by
    rw [le_div_iff₀ (by norm_num : (0 : ℚ) < 1000 * 60 * 60 * 24 * 30), heq]
    rw [show ((3 : ℚ) * (1000 * 60 * 60 * 24 * 30))
        = ((3 * (30 * msPerDay) : Int) : ℚ) by push_cast [msPerDay]; ring]
    exact Int.cast_le
  split_ifs with hq
  · simpa using hconv.mp hq
  · simpa using fun hh => hq (hconv.mpr hh)

/-- Claim C5: with every matching instance aged beyond the active window and
no `sourceDate` supplied, the skip query answers false exactly when the
earliest matching instance's `postedAt` is at least 3 (30-day) months old
(and true otherwise). -/
theorem hasBeenPosted_no_source_heuristic (cfg : Config) (store : V2Store) (nowMs : Int)
    (jobId : String) (jobData : Option JobData) (oldest : Job)
    (hnosrc : jobDataSourceOf jobData = none)
    (hmem : oldest ∈ store.jobs.filter (fun job => decide (job.jobId = jobId)))
    (hmin : ∀ j ∈ store.jobs.filter (fun job => decide (job.jobId = jobId)),
      oldest.postedToDiscord ≤ j.postedToDiscord)
    (haged : ∀ j ∈ store.jobs, j.jobId = jobId →
      j.postedToDiscord ≤ nowMs - (cfg.activeWindowDays : Int) * msPerDay) :
    (hasBeenPosted cfg store nowMs jobId jobData = false ↔
      3 * (30 * msPerDay) ≤ nowMs - oldest.postedToDiscord) := by
  have hne : store.jobs.filter (fun job => decide (job.jobId = jobId)) ≠ [] :=
    List.ne_nil_of_mem hmem
  have h1 := filter_isEmpty_false_of_ne_nil hne
  have h2 := aged_instances_any_false cfg store nowMs jobId haged
  cases jobData with
  | none =>
      simp only [hasBeenPosted, h1, Bool.false_eq_true, if_false, h2]
      exact hasBeenPostedNoSourceDate_iff _ nowMs oldest hmem hmin
  | some jd =>
      have hjd : jd.job_posted_at_datetime_utc = none := hnosrc
      simp only [hasBeenPosted, h1, Bool.false_eq_true, if_false, h2, hjd]
      exact hasBeenPostedNoSourceDate_iff _ nowMs oldest hmem hmin

/-- Claim C5 witness: one instance of "j" aged exactly 90 days (3 thirty-day
months), queried with no source date: allow (false). -/
theorem hasBeenPosted_no_source_heuristic_witness :
    hasBeenPosted cfgDefault
      { version := 2, lastUpdated := 0
        jobs := [{ id := "j-0-1", jobId := "j", company := "c", title := "t",
                   postedToDiscord := 0, sourceDate := none, sourceUrl := none,
                   discordThreadId := none, instanceNumber := 1 }]
        metadata := { totalJobs := 1, activeWindowDays := some 7, migratedFromV1 := false,
                      migrationDate := none, lastArchive := none } }
      (90 * msPerDay) "j" none = false :=
  (hasBeenPosted_no_source_heuristic cfgDefault _ (90 * msPerDay) "j" none
      { id := "j-0-1", jobId := "j", company := "c", title := "t",
        postedToDiscord := 0, sourceDate := none, sourceUrl := none,
        discordThreadId := none, instanceNumber := 1 }
      rfl (by decide) (by decide) (by decide)).mpr (by decide)

/-- Claim C1 counterexample: appending the same `jobId` three times with an
evicting archive cycle before each later append yields instance numbers
1, 1, 1 — not the claimed 1, 2, 3.  The first two instances sit in their
monthly buckets with `instanceNumber = 1` and the final active instance also
has `instanceNumber = 1`. -/
theorem markAsPosted_instance_numbers_cex :
    ((runLog cfgDefault 0
        [.append 0 "j" emptyJobData none,
         .archive (8 * msPerDay),
         .append (8 * msPerDay) "j" emptyJobData none,
         .archive (16 * msPerDay),
         .append (16 * msPerDay) "j" emptyJobData none]).1.store.jobs.map
        (fun j => j.instanceNumber) = [1])
    ∧ (((runLog cfgDefault 0
        [.append 0 "j" emptyJobData none,
         .archive (8 * msPerDay),
         .append (8 * msPerDay) "j" emptyJobData none,
         .archive (16 * msPerDay),
         .append (16 * msPerDay) "j" emptyJobData none]).1.buckets "0").map
        (fun j => j.instanceNumber) = [1])
    ∧ (((runLog cfgDefault 0
        [.append 0 "j" emptyJobData none,
         .archive (8 * msPerDay),
         .append (8 * msPerDay) "j" emptyJobData none,
         .archive (16 * msPerDay),
         .append (16 * msPerDay) "j" emptyJobData none]).1.buckets "6912000").map
        (fun j => j.instanceNumber) = [1]) := by
  refine ⟨?_, ?_, ?_⟩ <;> decide

/-- Claim C1 amended: `markAsPosted` numbers an instance as one plus the count
of instances of that `jobId` still in the active store, so appending the same
`jobId` three times yields 1, 2, 3 only when no interleaved archive cycle has
evicted the earlier instances (here: all ops within the 7-day window of the
first append); an archive cycle that evicts them resets the numbering to 1. -/
theorem markAsPosted_instance_numbers_amended :
    ((runLog cfgDefault 0
        [.append 0 "j" emptyJobData none,
         .archive (1 * msPerDay),
         .append (2 * msPerDay) "j" emptyJobData none,
         .archive (3 * msPerDay),
         .append (4 * msPerDay) "j" emptyJobData none]).1.store.jobs.map
        (fun j => j.instanceNumber) = [1, 2, 3])
    ∧ (∀ (cfg : Config) (store : V2Store) (nowMs : Int) (jobId : String)
        (jobData : JobData) (th : Option String),
        (newJobOf cfg store nowMs jobId jobData th).instanceNumber
          = (store.jobs.filter (fun job => decide (job.jobId = jobId))).length + 1)
    ∧ ((runLog cfgDefault 0
        [.append 0 "j" emptyJobData none,
         .archive (8 * msPerDay),
         .append (8 * msPerDay) "j" emptyJobData none]).1.store.jobs.map
        (fun j => j.instanceNumber) = [1]) := by
  refine ⟨by decide, fun _ _ _ _ _ _ => rfl, by decide⟩

theorem archiveOldJobs_isEmpty_case (cfg : Config) (nowMs : Int) (sys : Sys)
    (h : sys.store.jobs.filter (fun j =>
      !(decide (nowMs - (cfg.activeWindowDays : Int) * msPerDay < j.postedToDiscord))) = []) :
    archiveOldJobs cfg nowMs sys
      = (sys,
         { archived := 0
           active := (sys.store.jobs.filter (fun j =>
             decide (nowMs - (cfg.activeWindowDays : Int) * msPerDay < j.postedToDiscord))).length
           months := none }) := by
  simp only [archiveOldJobs, h, List.isEmpty_nil, if_true]

theorem archiveOldJobs_result_active (cfg : Config) (nowMs : Int) (sys : Sys) :
    ∀ j ∈ (archiveOldJobs cfg nowMs sys).1.store.jobs,
      nowMs - (cfg.activeWindowDays : Int) * msPerDay < j.postedToDiscord := by
  intro j hj
  simp only [archiveOldJobs] at hj
  split at hj
  · next h =>
      have := List.filter_eq_nil_iff.mp (List.isEmpty_iff.mp h) j hj
      simpa using this
  · next h =>
      have := List.mem_filter.mp hj
      simpa using this.2

/-- Claim C6: the archive operation is idempotent — a second run at the same
instant against the state left by the first run reports `archived = 0` and
returns the whole system (active store and every archive bucket) unchanged,
so no duplicate entries are inserted anywhere. -/
theorem archiveOldJobs_idempotent (cfg : Config) (nowMs : Int) (sys : Sys) :
    archiveOldJobs cfg nowMs (archiveOldJobs cfg nowMs sys).1
      = ((archiveOldJobs cfg nowMs sys).1,
         { archived := 0
           active := (archiveOldJobs cfg nowMs sys).1.store.jobs.length
           months := none }) := by
  have ha := archiveOldJobs_result_active cfg nowMs sys
  set s1 := (archiveOldJobs cfg nowMs sys).1 with hs1
  have h2 : s1.store.jobs.filter (fun j =>
      !(decide (nowMs - (cfg.activeWindowDays : Int) * msPerDay < j.postedToDiscord))) = [] :=
    List.filter_eq_nil_iff.mpr (fun a haa => by simp [ha a haa])
  have h3 : s1.store.jobs.filter (fun j =>
      decide (nowMs - (cfg.activeWindowDays : Int) * msPerDay < j.postedToDiscord))
      = s1.store.jobs :=
    List.filter_eq_self.mpr (fun a haa => by simp [ha a haa])
  rw [archiveOldJobs_isEmpty_case cfg nowMs s1 h2, h3]

theorem archive_preserves_allIds (cfg : Config) (nowMs : Int) (sys : Sys) :
    allIds (archiveOldJobs cfg nowMs sys).1 = allIds sys := by
  simp only [archiveOldJobs]
  split
  · rfl
  · next hne =>
    set act := sys.store.jobs.filter (fun j =>
      decide (nowMs - (cfg.activeWindowDays : Int) * msPerDay < j.postedToDiscord)) with hact
    set jta := sys.store.jobs.filter (fun j =>
      !(decide (nowMs - (cfg.activeWindowDays : Int) * msPerDay < j.postedToDiscord))) with hjta
    set months := (jta.map (monthOf cfg.cal)).dedup with hmonths
    ext i
    simp only [allIds, Set.mem_setOf_eq]
    constructor
    · rintro (⟨j, hj, rfl⟩ | ⟨m, j, hj, rfl⟩)
      · exact Or.inl ⟨j, (List.mem_filter.mp (hact ▸ hj)).1, rfl⟩
      · by_cases hm : m ∈ months
        · rw [if_pos hm] at hj
          rcases List.mem_append.mp ((List.mem_insertionSort byPosted).mp hj) with h1 | h1
          · exact Or.inr ⟨m, j, h1, rfl⟩
          · have hjta1 : j ∈ jta := (List.mem_filter.mp (List.mem_filter.mp h1).1).1
            exact Or.inl ⟨j, (List.mem_filter.mp (hjta ▸ hjta1)).1, rfl⟩
        · rw [if_neg hm] at hj
          exact Or.inr ⟨m, j, hj, rfl⟩
    · rintro (⟨j, hj, rfl⟩ | ⟨m, j, hj, rfl⟩)
      · by_cases hcut : nowMs - (cfg.activeWindowDays : Int) * msPerDay < j.postedToDiscord
        · refine Or.inl ⟨j, ?_, rfl⟩
          rw [hact]
          exact List.mem_filter.mpr ⟨hj, by simpa using hcut⟩
        · have hjta1 : j ∈ jta := by
            rw [hjta]
            exact List.mem_filter.mpr ⟨hj, by simpa using hcut⟩
          have hm : monthOf cfg.cal j ∈ months := by
            rw [hmonths]
            exact List.mem_dedup.mpr (List.mem_map_of_mem _ hjta1)
          refine Or.inr ⟨monthOf cfg.cal j, ?_⟩
          dsimp only
          rw [if_pos hm]
          by_cases hid : j.id ∈ (sys.buckets (monthOf cfg.cal j)).map (fun j2 => j2.id)
          · obtain ⟨j2, hj2, hid2⟩ := List.mem_map.mp hid
            exact ⟨j2, (List.mem_insertionSort byPosted).mpr
              (List.mem_append.mpr (Or.inl hj2)), hid2⟩
          · refine ⟨j, (List.mem_insertionSort byPosted).mpr
              (List.mem_append.mpr (Or.inr ?_)), rfl⟩
            exact List.mem_filter.mpr
              ⟨List.mem_filter.mpr ⟨hjta1, by simp⟩, by simpa using hid⟩
      · refine Or.inr ⟨m, ?_⟩
        dsimp only
        by_cases hm : m ∈ months
        · rw [if_pos hm]
          exact ⟨j, (List.mem_insertionSort byPosted).mpr
            (List.mem_append.mpr (Or.inl hj)), rfl⟩
        · rw [if_neg hm]
          exact ⟨j, hj, rfl⟩

theorem push_allIds (cfg : Config) (sys : Sys) (nowMs : Int) (jobId : String)
    (jobData : JobData) (th : Option String) :
    allIds { store := markAsPostedStore cfg sys.store nowMs jobId jobData th
             buckets := sys.buckets }
      = allIds sys ∪ {(newJobOf cfg sys.store nowMs jobId jobData th).id} := by
  ext i
  simp only [allIds, Set.mem_setOf_eq, Set.mem_union, Set.mem_singleton_iff, markAsPostedStore]
  constructor
  · rintro (⟨j, hj, rfl⟩ | hB)
    · rcases List.mem_append.mp hj with h | h
      · exact Or.inl (Or.inl ⟨j, h, rfl⟩)
      · exact Or.inr (by rw [List.mem_singleton.mp h])
    · exact Or.inl (Or.inr hB)
  · rintro ((⟨j, hj, rfl⟩ | hB) | rfl)
    · exact Or.inl ⟨j, List.mem_append.mpr (Or.inl hj), rfl⟩
    · exact Or.inr hB
    · exact Or.inl ⟨newJobOf cfg sys.store nowMs jobId jobData th,
        List.mem_append.mpr (Or.inr (List.mem_singleton.mpr rfl)), rfl⟩

theorem markAsPostedSys_allIds (cfg : Config) (nowMs : Int) (jobId : String)
    (jobData : JobData) (th : Option String) (sys : Sys) :
    allIds (markAsPostedSys cfg nowMs jobId jobData th sys)
      = allIds sys ∪ {(newJobOf cfg sys.store nowMs jobId jobData th).id} := by
  have h1 : allIds (markAsPostedSys cfg nowMs jobId jobData th sys)
      = allIds (archiveOldJobs cfg nowMs
          { store := markAsPostedStore cfg sys.store nowMs jobId jobData th
            buckets := sys.buckets }).1 := rfl
  rw [h1, archive_preserves_allIds, push_allIds]

/-- Claim C2: for any sequence of append and archive operations from the fresh
state, the set of instance ids across the active store plus all monthly
archive buckets (deduplicated by id) equals the set of all ids ever appended:
a successful archive run never loses an id and never invents one. -/
theorem archive_conservation (cfg : Config) (now0 : Int) (ops : List Op) :
    allIds (runLog cfg now0 ops).1 = {i | i ∈ (runLog cfg now0 ops).2} := by
  have key : ∀ (l : List Op) (s : Sys) (log : List String),
      allIds s = {i | i ∈ log} →
      allIds (l.foldl (stepLog cfg) (s, log)).1
        = {i | i ∈ (l.foldl (stepLog cfg) (s, log)).2} := by
    intro l
    induction l with
    | nil => intro s log h; simpa using h
    | cons op rest ih =>
        intro s log h
        rw [List.foldl_cons]
        cases op with
        | append n jid jd th =>
            apply ih
            simp only [stepLog]
            rw [markAsPostedSys_allIds, h]
            ext i
            simp only [Set.mem_union, Set.mem_setOf_eq, Set.mem_singleton_iff,
              List.mem_append, List.mem_singleton]
        | archive n =>
            apply ih
            simp only [stepLog]
            rw [archive_preserves_allIds, h]
  apply key
  ext i
  simp [allIds, initSys, createEmptyDatabase]

/-- Claim C7 counterexample: with `ACTIVE_WINDOW_DAYS = 30`, the very next
save archives none of the migrated entries — the migrated instance of "a"
stays in the active store — because `migrateFromV1` backdates by a fixed
8 days (`postedToDiscord = now - 8 days`), not by one day beyond the
configured active window. -/
theorem migrateFromV1_backdate_cex :
    ((archiveOldJobs { activeWindowDays := 30, reopeningWindowDays := 30, cal := calMs } 0
        { store := migrateFromV1 none 0 ["a"], buckets := fun _ => [] }).2.archived = 0)
    ∧ ((archiveOldJobs { activeWindowDays := 30, reopeningWindowDays := 30, cal := calMs } 0
        { store := migrateFromV1 none 0 ["a"], buckets := fun _ => [] }).1.store.jobs.map
        (fun j => j.jobId) = ["a"])
    ∧ ((migrateFromV1 none 0 ["a"]).jobs.map (fun j => j.postedToDiscord)
        = [-(8 * msPerDay)]) := by
  refine ⟨?_, ?_, ?_⟩ <;> decide

theorem archiveOldJobs_store_jobs (cfg : Config) (nowMs : Int) (sys : Sys) :
    (archiveOldJobs cfg nowMs sys).1.store.jobs
      = if (sys.store.jobs.filter (fun j =>
          !(decide (nowMs - (cfg.activeWindowDays : Int) * msPerDay < j.postedToDiscord)))).isEmpty
        then sys.store.jobs
        else sys.store.jobs.filter (fun j =>
          decide (nowMs - (cfg.activeWindowDays : Int) * msPerDay < j.postedToDiscord)) := by
  by_cases h : (sys.store.jobs.filter (fun j =>
      !(decide (nowMs - (cfg.activeWindowDays : Int) * msPerDay < j.postedToDiscord)))).isEmpty
      = true
  · rw [archiveOldJobs_isEmpty_case cfg nowMs sys (List.isEmpty_iff.mp h), if_pos h]
  · rw [if_neg h]
    simp only [archiveOldJobs, if_neg h]

/-- Claim C7 amended: `migrateFromV1` wraps each legacy identifier into an
instance with `instanceNumber = 1`, unknown company/title, and
`postedToDiscord` backdated by a fixed 8 days (one day beyond the *default*
7-day window), and sets `metadata.migratedFromV1 = true`; the very next save
archives all migrated entries exactly when the configured `activeWindowDays`
is at most 8 (in particular at the default 7), not for every configuration. -/
theorem migrateFromV1_contract (aw : Option Nat) (nowMs : Int) (ids : List String)
    (cfg : Config) (bk : String → List Job) :
    (∀ j ∈ (migrateFromV1 aw nowMs ids).jobs,
      j.instanceNumber = 1 ∧ j.company = "Unknown (migrated)"
        ∧ j.title = "Unknown (migrated)" ∧ j.postedToDiscord = nowMs - 8 * msPerDay)
    ∧ (migrateFromV1 aw nowMs ids).metadata.migratedFromV1 = true
    ∧ ((archiveOldJobs cfg nowMs
          { store := migrateFromV1 aw nowMs ids, buckets := bk }).1.store.jobs = []
        ↔ ((cfg.activeWindowDays : Int) ≤ 8 ∨ ids = [])) := by
  have hfields : ∀ j ∈ (migrateFromV1 aw nowMs ids).jobs,
      j.instanceNumber = 1 ∧ j.company = "Unknown (migrated)"
        ∧ j.title = "Unknown (migrated)" ∧ j.postedToDiscord = nowMs - 8 * msPerDay := by
    intro j hj
    simp only [migrateFromV1] at hj
    obtain ⟨p, hp, rfl⟩ := List.mem_map.mp hj
    exact ⟨rfl, rfl, rfl, rfl⟩
  have hposted : ∀ j ∈ (migrateFromV1 aw nowMs ids).jobs,
      j.postedToDiscord = nowMs - 8 * msPerDay := fun j hj => (hfields j hj).2.2.2
  have hlen : (migrateFromV1 aw nowMs ids).jobs.length = ids.length := by
    simp [migrateFromV1]
  refine ⟨hfields, rfl, ?_⟩
  rw [archiveOldJobs_store_jobs]
  by_cases hw : (cfg.activeWindowDays : Int) ≤ 8
  · have hmul : (cfg.activeWindowDays : Int) * msPerDay ≤ 8 * msPerDay :=
      mul_le_mul_of_nonneg_right hw (by norm_num [msPerDay])
    have hta : (migrateFromV1 aw nowMs ids).jobs.filter (fun j =>
        !(decide (nowMs - (cfg.activeWindowDays : Int) * msPerDay < j.postedToDiscord)))
        = (migrateFromV1 aw nowMs ids).jobs :=
      List.filter_eq_self.mpr (fun a ha => by
        simp only [hposted a ha, Bool.not_eq_true', decide_eq_false_iff_not]
        intro hlt
        linarith)
    have hfa : (migrateFromV1 aw nowMs ids).jobs.filter (fun j =>
        decide (nowMs - (cfg.activeWindowDays : Int) * msPerDay < j.postedToDiscord)) = [] :=
      List.filter_eq_nil_iff.mpr (fun a ha => by
        simp only [hposted a ha, decide_eq_true_eq]
        intro hlt
        linarith)
    rw [hta]
    by_cases hids : ids = []
    · subst hids
      have hjobs : (migrateFromV1 aw nowMs ([] : List String)).jobs = [] := rfl
      simp [hjobs]
    · have hne : (migrateFromV1 aw nowMs ids).jobs ≠ [] := by
        intro h
        have := congrArg List.length h
        rw [hlen] at this
        exact hids (List.length_eq_zero.mp (by simpa using this))
      have hie : ((migrateFromV1 aw nowMs ids).jobs).isEmpty = false := by
        cases hh : ((migrateFromV1 aw nowMs ids).jobs).isEmpty with
        | false => rfl
        | true => exact absurd (List.isEmpty_iff.mp hh) hne
      simp [hie, hfa, hw]
  · have h8 : (8 : Int) < cfg.activeWindowDays := lt_of_not_le hw
    have hmul : 8 * msPerDay < (cfg.activeWindowDays : Int) * msPerDay :=
      mul_lt_mul_of_pos_right h8 (by norm_num [msPerDay])
    have hta : (migrateFromV1 aw nowMs ids).jobs.filter (fun j =>
        !(decide (nowMs - (cfg.activeWindowDays : Int) * msPerDay < j.postedToDiscord))) = [] :=
      List.filter_eq_nil_iff.mpr (fun a ha => by
        simp only [hposted a ha, Bool.not_eq_true', decide_eq_false_iff_not, not_not]
        linarith)
    simp only [hta, List.isEmpty_nil, if_true]
    constructor
    · intro h
      have := congrArg List.length h
      rw [hlen] at this
      exact Or.inr (List.length_eq_zero.mp (by simpa using this))
    · rintro (h | h)
      · exact absurd h hw
      · subst h; rfl

/-- Claim C7 witness: at the default 7-day window, a migrated instance is
archived by the very next save (the active store empties). -/
theorem migrateFromV1_contract_witness :
    (archiveOldJobs cfgDefault 0
      { store := migrateFromV1 none 0 ["a"], buckets := fun _ => [] }).1.store.jobs = [] :=
  (migrateFromV1_contract none 0 ["a"] cfgDefault (fun _ => [])).2.2.mpr
    (Or.inl (by decide))

/-- Claim C9: `savePostedJobs` aborts the process exactly when the post-write
re-read of the active-store file disagrees with (or cannot produce) the
in-memory record count; with a faithful disk it succeeds; and its outcome
depends only on the re-read content of the active-store path — the
archive-bucket files, written through the same `atomicReplace` write-temp /
flush / rename mechanism, are never verified. -/
theorem savePostedJobs_verification (cfg : Config) (nowMs : Int) (sys : Sys)
    (fs : FS) (interfere : FS → FS) :
    (savePostedJobsFS cfg nowMs sys fs interfere = .fatalExit
      ↔ readStoreCount (interfere (fsAfterSaveWrites cfg nowMs sys fs)) postedJobsPath
          ≠ some (saveDoc cfg nowMs sys).jobs.length)
    ∧ savePostedJobsFS cfg nowMs sys fs id
        = .ok { store := saveDoc cfg nowMs sys
                buckets := (archiveOldJobs cfg nowMs sys).1.buckets }
    ∧ (∀ interfere2 : FS → FS,
        interfere (fsAfterSaveWrites cfg nowMs sys fs) postedJobsPath
          = interfere2 (fsAfterSaveWrites cfg nowMs sys fs) postedJobsPath →
        savePostedJobsFS cfg nowMs sys fs interfere
          = savePostedJobsFS cfg nowMs sys fs interfere2) := by
  refine ⟨?_, ?_, ?_⟩
  · simp only [savePostedJobsFS, readStoreCount]
    cases hread : interfere (fsAfterSaveWrites cfg nowMs sys fs) postedJobsPath with
    | none => simp
    | some fd =>
        cases fd with
        | storeDoc v =>
            by_cases hc : v.jobs.length = (saveDoc cfg nowMs sys).jobs.length
            · simp [hc]
            · simp [hc]
        | bucketArr l => simp
  · have hkey : fsAfterSaveWrites cfg nowMs sys fs postedJobsPath
        = some (.storeDoc (saveDoc cfg nowMs sys)) := by
      simp [fsAfterSaveWrites, atomicReplace, renameTempInto, writeTempFile]
    simp [savePostedJobsFS, hkey]
  · intro interfere2 he
    simp only [savePostedJobsFS]
    rw [he]

/-- Claim C9 witness: interference that corrupts an archive-bucket file (and
nothing else) after the writes leaves the save outcome identical to the
faithful-disk outcome — bucket contents are never verified. -/
theorem savePostedJobs_verification_witness :
    savePostedJobsFS cfgDefault 0 (initSys 0) (fun _ => none) corruptBucketZero
      = savePostedJobsFS cfgDefault 0 (initSys 0) (fun _ => none) id :=
  (savePostedJobs_verification cfgDefault 0 (initSys 0) (fun _ => none)
      corruptBucketZero).2.2 id (by
    show (if postedJobsPath = archiveBucketPath "0" then none
        else fsAfterSaveWrites cfgDefault 0 (initSys 0) (fun _ => none) postedJobsPath)
      = id (fsAfterSaveWrites cfgDefault 0 (initSys 0) (fun _ => none)) postedJobsPath
    rw [if_neg (by decide)]
    rfl)

end PostedJobsV2
